import Mathlib

/-!
Verification of the SyncBoard knowledge-bank backend (semantic indexing and
adaptive clustering engine).

The development shallowly embeds the Python sources under
`src/refactored/syncboard_backend/backend/`:

* `models.py` — the `Concept`, `DocumentMetadata` and `Cluster` records;
* `storage.py` — `save_storage` and `load_storage` (their data transformation;
  the file input and output is elided);
* `main.py` — the endpoint handlers `upload_text_content`, `delete_document`
  and `update_document_metadata`, and the helper `find_or_create_cluster`,
  acting on the shared in-memory state (documents, metadata, clusters, users,
  vector store).

The repository imports `vector_store.py` (class `VectorStore`) and
`clustering.py` (class `ClusteringEngine`), but neither file is present in the
sources; those two components are modelled from the specification text, as
marked by doc comments starting with `Modelled from the spec:`.

Python dictionaries are embedded as insertion-ordered association lists,
mirroring dict semantics (lookup by key, in-place update keeps position,
fresh keys append at the end). Fractional quantities (overlap scores and
similarity scores) are embedded as numerator/denominator pairs of naturals so
that every definition evaluates inside the kernel; their numeric value is the
rational `fracVal`.
-/

namespace SyncBoard

/-- Lookup in a Python-style dict embedded as an association list. -/
def dget {κ α : Type} [BEq κ] (d : List (κ × α)) (k : κ) : Option α :=
  (d.find? (fun p => p.1 == k)).map Prod.snd

/-- Key-membership test for an embedded dict, as in the Python test `k in d`. -/
def dmem {κ α : Type} [BEq κ] (d : List (κ × α)) (k : κ) : Bool :=
  (d.find? (fun p => p.1 == k)).isSome

/-- Assignment `d[k] = v` of a Python dict: an existing key keeps its position
and gets the new value, a fresh key is appended at the end. -/
def dset {κ α : Type} [BEq κ] (d : List (κ × α)) (k : κ) (v : α) : List (κ × α) :=
  if dmem d k then d.map (fun p => if p.1 == k then (k, v) else p) else d ++ [(k, v)]

/-- Deletion `del d[k]` of a Python dict (also models `d.pop(k, None)`). -/
def ddel {κ α : Type} [BEq κ] (d : List (κ × α)) (k : κ) : List (κ × α) :=
  d.filter (fun p => !(p.1 == k))

/-- ASCII lower-casing of one character, the case fold used by the tokenizer
and by the case-insensitive comparisons of the clustering engine. -/
def lowerChar (c : Char) : Char :=
  if 'A' ≤ c ∧ c ≤ 'Z' then Char.ofNat (c.toNat + 32) else c

/-- Lower-case a whole string (models Python `str.lower()` on ASCII text). -/
def lowerStr (s : String) : String := String.mk (s.data.map lowerChar)

/-- Split a character list on spaces, dropping empty fragments; `cur` is the
word being accumulated (reversed) and `acc` the finished words (reversed). -/
def splitWords (cur : List Char) (acc : List (List Char)) : List Char → List (List Char)
  | [] => if cur = [] then acc.reverse else (cur.reverse :: acc).reverse
  | c :: rest =>
      if c = ' ' then
        if cur = [] then splitWords [] acc rest
        else splitWords [] (cur.reverse :: acc) rest
      else splitWords (c :: cur) acc rest

/-- Modelled from the spec: the tokenizer of the missing `vector_store.py`
(case-fold, strip punctuation, split on whitespace). Characters that are not
alphanumeric are treated as separators. -/
def tokenize (s : String) : List String :=
  (splitWords [] []
      (s.data.map (fun c => if (lowerChar c).isAlphanum then lowerChar c else ' '))).map
    (fun w => String.mk w)

/-- Modelled from the spec: the stable term hash of the missing
`vector_store.py` that maps a term into one of `dim` feature slots (here a
simple polynomial hash of the character codes; the spec fixes only that the
hash is stable and is taken modulo the dimension). -/
def termHash (w : String) : Nat := w.data.foldl (fun h c => h * 131 + c.toNat) 7

/-- Normal form of a numerator/denominator pair: a zero denominator is read as
the value zero. -/
def fracNorm (p : Nat × Nat) : Nat × Nat := if p.2 = 0 then (0, 1) else p

/-- Strict comparison of two fractional scores by cross-multiplication. -/
def fracGt (a b : Nat × Nat) : Bool :=
  (fracNorm b).1 * (fracNorm a).2 < (fracNorm a).1 * (fracNorm b).2

/-- Equality of two fractional scores by cross-multiplication. -/
def fracEq (a b : Nat × Nat) : Bool :=
  (fracNorm a).1 * (fracNorm b).2 == (fracNorm b).1 * (fracNorm a).2

/-- Non-strict comparison of two fractional scores by cross-multiplication. -/
def fracGe (a b : Nat × Nat) : Bool :=
  (fracNorm b).1 * (fracNorm a).2 ≤ (fracNorm a).1 * (fracNorm b).2

/-- Rational value of a fractional score. -/
def fracVal (p : Nat × Nat) : ℚ := ((fracNorm p).1 : ℚ) / ((fracNorm p).2 : ℚ)

/-- Concept record from `models.py` (`Concept`): an extracted concept with a
name, a category and a confidence. The confidence, a float in `[0,1]` in the
source, is embedded as a fractional score. -/
structure Concept where
  name : String
  category : String
  confidence : Nat × Nat
deriving DecidableEq

/-- Cluster record from `models.py` (`Cluster`): a group of related documents. -/
structure Cluster where
  id : Nat
  name : String
  primary_concepts : List String
  doc_ids : List Nat
  skill_level : String
  doc_count : Nat
deriving DecidableEq

/-- Document metadata record from `models.py` (`DocumentMetadata`). The field
`primary_topic` is not declared in `models.py` but is written by the
`update_document_metadata` handler in `main.py`, so it is carried here. -/
structure DocumentMetadata where
  doc_id : Nat
  owner : String
  source_type : String
  source_url : Option String
  filename : Option String
  concepts : List Concept
  skill_level : String
  cluster_id : Option Nat
  ingested_at : String
  content_length : Nat
  image_path : Option String
  primary_topic : Option String
deriving DecidableEq

/-- Modelled from the spec: the state of the missing `vector_store.py`
(`VectorStore`): the fixed dimension, the raw-text corpus `doc_id → text`,
the sparse vector of each document frozen at insertion time
(`doc_id → slot → weight`), and the vocabulary statistics
`term → document frequency`. -/
structure VectorStore where
  dim : Nat
  docs : List (Nat × String)
  vecs : List (Nat × List (Nat × Nat))
  df : List (String × Nat)
deriving DecidableEq

/-- Empty vector store of a given dimension. -/
def VectorStore.emptyStore (dim : Nat) : VectorStore := ⟨dim, [], [], []⟩

/-- Modelled from the spec: the id the missing `vector_store.py` assigns next,
one plus the current maximum existing id, or the smallest non-negative id (0)
when the index is empty. -/
def VectorStore.nextId (vs : VectorStore) : Nat :=
  if vs.docs.isEmpty then 0 else (vs.docs.map Prod.fst).foldl max 0 + 1

/-- Increment the document-frequency counter of one term. -/
def bumpDF (d : List (String × Nat)) (t : String) : List (String × Nat) :=
  if dmem d t then d.map (fun p => if p.1 == t then (p.1, p.2 + 1) else p)
  else d ++ [(t, 1)]

/-- Accumulate a weight into a feature slot of a sparse vector. -/
def addWeight (v : List (Nat × Nat)) (slot w : Nat) : List (Nat × Nat) :=
  if dmem v slot then v.map (fun p => if p.1 == slot then (p.1, p.2 + w) else p)
  else v ++ [(slot, w)]

/-- Modelled from the spec: the idf factor of the missing `vector_store.py`,
`idf = ln((N+1)/(df+1)) + 1`. The transcendental logarithm is replaced by a
computable positive stand-in (natural division plus one); no verified claim
depends on the numeric value of the weights, only on which statistics are
read and when. -/
def idfWeight (n df : Nat) : Nat := (n + 1) / (df + 1) + 1

/-- Modelled from the spec: build the sparse `tf * idf` vector of a token
list, hashing each term into one of `dim` slots and accumulating colliding
weights, with the document-frequency statistics fixed at the given snapshot. -/
def buildVec (dim : Nat) (tokens : List String) (d : List (String × Nat)) (n : Nat) :
    List (Nat × Nat) :=
  tokens.dedup.foldl
    (fun v t => addWeight v (termHash t % dim) (tokens.count t * idfWeight n ((dget d t).getD 0)))
    []

/-- Modelled from the spec: `add_document(text) -> doc_id` of the missing
`vector_store.py`. Tokenizes, bumps the document-frequency counter of every
observed term, computes the `tf * idf` vector with the statistics at insertion
time (the updated counters, the new document included in `N`), stores text and
vector under a fresh id equal to one plus the current maximum id (0 when the
index is empty), and returns that id. -/
def VectorStore.add_document (vs : VectorStore) (text : String) : Nat × VectorStore :=
  let i := vs.nextId
  let toks := tokenize text
  let df2 := toks.dedup.foldl bumpDF vs.df
  let vec := buildVec vs.dim toks df2 (vs.docs.length + 1)
  (i, { vs with docs := vs.docs ++ [(i, text)], vecs := vs.vecs ++ [(i, vec)], df := df2 })

/-- Dot product of two sparse vectors. -/
def dotProd (a b : List (Nat × Nat)) : Nat :=
  a.foldl (fun s p => s + p.2 * ((dget b p.1).getD 0)) 0

/-- Modelled from the spec: the cosine-similarity score of the missing
`vector_store.py`, embedded as its square `(a·b)² / ((a·a)(b·b))` so that it
stays a fraction of naturals; squaring preserves order and ties because every
cosine here is non-negative. -/
def cosineScore (a b : List (Nat × Nat)) : Nat × Nat :=
  (dotProd a b * dotProd a b, dotProd a a * dotProd b b)

/-- Modelled from the spec: the snippet is a bounded leading slice of the raw
text (first 160 characters). -/
def snippetOf (text : String) : String := String.mk (text.data.take 160)

/-- Ordering of search hits: higher score first, ties by ascending doc id. -/
def hitBefore (a b : Nat × (Nat × Nat) × String) : Bool :=
  fracGt a.2.1 b.2.1 || (fracEq a.2.1 b.2.1 && a.1 ≤ b.1)

/-- Relation form of `hitBefore`, used by the sort inside `search`. -/
def hitOrder (a b : Nat × (Nat × Nat) × String) : Prop := hitBefore a b = true

instance : DecidableRel hitOrder := fun a b => inferInstanceAs (Decidable (_ = true))

/-- Candidate documents of a search: the full corpus, or only the allowed ids
when a filter is given (unknown allowed ids simply have no candidate). -/
def searchCands (vs : VectorStore) (allowed : Option (List Nat)) : List (Nat × String) :=
  match allowed with
  | some s => vs.docs.filter (fun p => decide (p.1 ∈ s))
  | none => vs.docs

/-- Scored candidates of a search: each candidate paired with its similarity
score against the query vector and its snippet. -/
def searchScored (vs : VectorStore) (query : String) (allowed : Option (List Nat)) :
    List (Nat × (Nat × Nat) × String) :=
  (searchCands vs allowed).map
    (fun p => (p.1, cosineScore (buildVec vs.dim (tokenize query) vs.df vs.docs.length)
        ((dget vs.vecs p.1).getD []), snippetOf p.2))

/-- Ranking step of a search: sort descending by score with ties broken by
ascending doc id, then truncate to `top_k`. -/
def searchRank (scored : List (Nat × (Nat × Nat) × String)) (topK : Nat) :
    List (Nat × (Nat × Nat) × String) :=
  (scored.insertionSort hitOrder).take topK

/-- Modelled from the spec: `search(query, top_k, allowed_doc_ids?)` of the
missing `vector_store.py`. Vectorizes the query with the same hashing scheme
without mutating the vocabulary statistics, scores every candidate, sorts
descending by score with ties broken by ascending doc id, and truncates to
`top_k`. The empty query and the empty corpus give the empty list. -/
def VectorStore.search (vs : VectorStore) (query : String) (topK : Nat)
    (allowed : Option (List Nat)) : List (Nat × (Nat × Nat) × String) :=
  if tokenize query = [] then [] else searchRank (searchScored vs query allowed) topK

/-- Lower-cased, deduplicated concept names, the case-insensitive set of
names used by the overlap computation. -/
def conceptNames (cs : List Concept) : List String :=
  (cs.map (fun c => lowerStr c.name)).dedup

/-- Size of the intersection of two deduplicated name lists. -/
def interCount (a b : List String) : Nat := (a.filter (fun x => b.contains x)).length

/-- Size of the union of two deduplicated name lists. -/
def unionCount (a b : List String) : Nat :=
  a.length + (b.filter (fun x => !(a.contains x))).length

/-- Modelled from the spec: the concept-overlap of the missing
`clustering.py`, `|intersection| / |union|` of the case-insensitive concept
name sets, as a fractional score (an empty union gives the value zero). -/
def overlapFrac (dc : List Concept) (c : Cluster) : Nat × Nat :=
  let a := conceptNames dc
  let b := (c.primary_concepts.map lowerStr).dedup
  (interCount a b, unionCount a b)

/-- Case-insensitive exact name match between the suggested name and the
cluster name. -/
def nameMatches (suggested : String) (c : Cluster) : Bool :=
  lowerStr suggested == lowerStr c.name

/-- Modelled from the spec: eligibility in the missing `clustering.py` — the
name matches exactly (case-insensitively), or the overlap is at least the
fixed threshold 0.3. -/
def clusterEligible (dc : List Concept) (suggested : String) (c : Cluster) : Bool :=
  nameMatches suggested c || fracGe (overlapFrac dc c) (3, 10)

/-- Modelled from the spec: the strict preference of the missing
`clustering.py` among eligible clusters — higher overlap first, then larger
`doc_count`, then lower `cluster_id`. -/
def clusterBetter (dc : List Concept) (a b : Cluster) : Bool :=
  fracGt (overlapFrac dc a) (overlapFrac dc b) ||
    (fracEq (overlapFrac dc a) (overlapFrac dc b) &&
      (b.doc_count < a.doc_count || (b.doc_count == a.doc_count && a.id < b.id)))

/-- Non-strict preference relation used by the selection sort inside
`find_best_cluster`: `a` comes before `b` when `b` is not strictly better. -/
def clusterPref (dc : List Concept) (a b : Cluster) : Prop :=
  clusterBetter dc b a = false

instance (dc : List Concept) : DecidableRel (clusterPref dc) :=
  fun a b => inferInstanceAs (Decidable (_ = false))

/-- Modelled from the spec: `find_best_cluster(doc_concepts, suggested_name,
existing_clusters) -> cluster_id | none` of the missing `clustering.py`.
Filters the registry to the eligible clusters and returns the id of the most
preferred one (highest overlap, then larger `doc_count`, then lowest id), or
none when no cluster is eligible or the registry is empty. -/
def find_best_cluster (dc : List Concept) (suggestedName : String)
    (existing : List (Nat × Cluster)) : Option Nat :=
  (((existing.map Prod.snd).filter (clusterEligible dc suggestedName)).insertionSort
      (clusterPref dc)).head?.map Cluster.id

/-- Descending-confidence preference on concepts, used to rank the primary
concepts of a new cluster. -/
def confPref (a b : Concept) : Prop := fracGt b.confidence a.confidence = false

instance : DecidableRel confPref := fun a b => inferInstanceAs (Decidable (_ = false))

/-- Modelled from the spec: the top-5 concept names ranked by confidence,
fixed as the `primary_concepts` of a newly created cluster. -/
def topConceptNames (cs : List Concept) : List String :=
  ((cs.insertionSort confPref).take 5).map (fun c => c.name)

/-- Modelled from the spec: `create_cluster` of the missing `clustering.py`.
Allocates `cluster_id = max(existing ids) + 1` (1 when the registry is empty),
ranks the primary concepts, seeds the membership with the single document and
`doc_count = 1`, and inserts the new cluster into the caller-owned registry. -/
def create_cluster (docId : Nat) (name : String) (concepts : List Concept)
    (skillLevel : String) (existing : List (Nat × Cluster)) : Nat × List (Nat × Cluster) :=
  let newId := if existing.isEmpty then 1 else (existing.map Prod.fst).foldl max 0 + 1
  let c : Cluster :=
    { id := newId, name := name, primary_concepts := topConceptNames concepts,
      doc_ids := [docId], skill_level := skillLevel, doc_count := 1 }
  (newId, dset existing newId c)

/-- Modelled from the spec: `add_to_cluster(cluster_id, doc_id,
existing_clusters)` of the missing `clustering.py`. Appends the doc id to the
target cluster only if absent and updates `doc_count` to match; an unknown
cluster id leaves the registry unchanged. -/
def add_to_cluster (cid docId : Nat) (existing : List (Nat × Cluster)) :
    List (Nat × Cluster) :=
  match dget existing cid with
  | none => existing
  | some c =>
      if docId ∈ c.doc_ids then existing
      else
        dset existing cid
          { c with doc_ids := c.doc_ids ++ [docId], doc_count := c.doc_ids.length + 1 }

/-- Documents portion of `save_storage` (`storage.py`): the persisted value
under the key `documents` is the bare list of texts in ascending `doc_id`
order — the list comprehension `[documents[idx] for idx in
sorted(documents.keys())]`; the ids themselves are not persisted. -/
def save_storage (documents : List (Nat × String)) : List String :=
  ((documents.map Prod.fst).insertionSort (· ≤ ·)).map (fun k => (dget documents k).getD "")

/-- Documents portion of `load_storage` (`storage.py`): the loop `for idx,
text in enumerate(doc_texts)` replays `vector_store.add_document(text)` for
each persisted text and keys the text store by the enumeration index. -/
def load_storage (texts : List String) (vs : VectorStore) :
    List (Nat × String) × VectorStore :=
  (texts.enum, texts.foldl (fun s t => (s.add_document t).2) vs)

/-- Ids assigned by replaying `add_document` over a list of texts from a given
store, in order. -/
def replayIdsFrom (vs : VectorStore) : List String → List Nat
  | [] => []
  | t :: rest => (vs.add_document t).1 :: replayIdsFrom (vs.add_document t).2 rest

/-- Shared in-memory state of `main.py`: the module-level `vector_store`,
`documents`, `metadata`, `clusters` and `users`. -/
structure AppState where
  vector_store : VectorStore
  documents : List (Nat × String)
  metadata : List (Nat × DocumentMetadata)
  clusters : List (Nat × Cluster)
  users : List (String × String)
deriving DecidableEq

/-- Structured result of the external concept extractor consumed by the
upload handlers (`extraction.get(...)` in `main.py`); the extractor itself is
an external collaborator and is passed in as an input. -/
structure Extraction where
  concepts : List Concept
  skill_level : Option String
  suggested_cluster : Option String

/-- Helper `find_or_create_cluster` of `main.py` (lines 310-338): look up the
best cluster and add the document to it, or create a new cluster with the
skill level recorded in the document metadata. -/
def find_or_create_cluster (st : AppState) (docId : Nat) (suggested : String)
    (concepts : List Concept) : Nat × AppState :=
  let skill := ((dget st.metadata docId).map (fun m => m.skill_level)).getD "unknown"
  match find_best_cluster concepts suggested st.clusters with
  | some cid => (cid, { st with clusters := add_to_cluster cid docId st.clusters })
  | none =>
      let r := create_cluster docId suggested concepts skill st.clusters
      (r.1, { st with clusters := r.2 })

/-- Python `str.strip()` with the default whitespace set (space, tab, newline,
carriage return, vertical tab, form feed). -/
def isPySpace (c : Char) : Bool :=
  c == ' ' || c == '\t' || c == '\n' || c == '\r' || c == Char.ofNat 11 || c == Char.ofNat 12

/-- Python `str.strip()`: drop leading and trailing whitespace. -/
def pyStrip (s : String) : String :=
  String.mk (((s.data.dropWhile isPySpace).reverse.dropWhile isPySpace).reverse)

/-- Endpoint handler `upload_text_content` of `main.py` (lines 344-396).
Blank content is rejected with HTTP 400 before anything runs; otherwise the
text is added to the vector store and the text store, metadata is created,
and the document is placed into a cluster. The external concept extraction
result and the ingestion timestamp are inputs. Returns the pair of the
response (`document_id` and `cluster_id` on success, the HTTP status on
failure) and the state after the call. -/
def upload_text_content (st : AppState) (username : String) (content : String)
    (ext : Extraction) (now : String) : Except Nat (Nat × Nat) × AppState :=
  if content = "" ∨ pyStrip content = "" then (Except.error 400, st)
  else
    let r := st.vector_store.add_document content
    let docId := r.1
    let meta : DocumentMetadata :=
      { doc_id := docId, owner := username, source_type := "text",
        source_url := none, filename := none, concepts := ext.concepts,
        skill_level := ext.skill_level.getD "unknown", cluster_id := none,
        ingested_at := now, content_length := content.length,
        image_path := none, primary_topic := none }
    let st2 : AppState :=
      { st with vector_store := r.2, documents := dset st.documents docId content,
                metadata := dset st.metadata docId meta }
    let rc := find_or_create_cluster st2 docId (ext.suggested_cluster.getD "General")
        ext.concepts
    let st3 := rc.2
    let st4 := { st3 with metadata := dset st3.metadata docId { meta with cluster_id := some rc.1 } }
    (Except.ok (docId, rc.1), st4)

/-- Endpoint handler `delete_document` of `main.py` (lines 898-930). An
unknown id gives HTTP 404; otherwise the entry is removed from the text store
and the metadata map and the doc id is removed from the doc id list of its
cluster (the vector store is never touched, and `doc_count` is not updated).
Returns the response and the state after the call. -/
def delete_document (st : AppState) (docId : Nat) : Except Nat String × AppState :=
  if !(dmem st.documents docId) then (Except.error 404, st)
  else
    let metaOpt := dget st.metadata docId
    let clusters2 :=
      match metaOpt with
      | none => st.clusters
      | some m =>
          match m.cluster_id with
          | none => st.clusters
          | some cid =>
              match dget st.clusters cid with
              | none => st.clusters
              | some cl =>
                  if docId ∈ cl.doc_ids then
                    dset st.clusters cid { cl with doc_ids := cl.doc_ids.erase docId }
                  else st.clusters
    (Except.ok "deleted",
     { st with documents := ddel st.documents docId,
               metadata := ddel st.metadata docId, clusters := clusters2 })

/-- Update payload of `update_document_metadata`: which keys are present in
the `updates` dict and their values (`cluster_id` may be present with the
value null, hence the nested option). -/
structure MetadataUpdate where
  primary_topic : Option String
  skill_level : Option String
  cluster_id : Option (Option Nat)

/-- Endpoint handler `update_document_metadata` of `main.py` (lines 933-978).
Unknown document or missing metadata give HTTP 404 up front. A present
`cluster_id` key first removes the doc id from the doc id list of its old
cluster, then validates the new cluster id: when the new id is unknown the
handler aborts with HTTP 404 — after the removal already happened — and when
it is known the doc id is appended to the new cluster and the metadata field
is updated (`doc_count` is never touched). Returns the response and the state
after the call, including the partly mutated state of the failing path. -/
def update_document_metadata (st : AppState) (docId : Nat) (u : MetadataUpdate) :
    Except Nat String × AppState :=
  if !(dmem st.documents docId) then (Except.error 404, st)
  else
    match dget st.metadata docId with
    | none => (Except.error 404, st)
    | some m0 =>
        let m1 := match u.primary_topic with
          | some v => { m0 with primary_topic := some v }
          | none => m0
        let m2 := match u.skill_level with
          | some v =>
              if v = "beginner" ∨ v = "intermediate" ∨ v = "advanced"
              then { m1 with skill_level := v } else m1
          | none => m1
        match u.cluster_id with
        | none => (Except.ok "updated", { st with metadata := dset st.metadata docId m2 })
        | some newCid =>
            let cl1 :=
              match m2.cluster_id with
              | some oldCid =>
                  match dget st.clusters oldCid with
                  | some oc =>
                      if docId ∈ oc.doc_ids then
                        dset st.clusters oldCid { oc with doc_ids := oc.doc_ids.erase docId }
                      else st.clusters
                  | none => st.clusters
              | none => st.clusters
            match newCid with
            | some n =>
                match dget cl1 n with
                | none =>
                    (Except.error 404,
                     { st with clusters := cl1, metadata := dset st.metadata docId m2 })
                | some nc =>
                    (Except.ok "updated",
                     { st with
                         clusters := dset cl1 n { nc with doc_ids := nc.doc_ids ++ [docId] },
                         metadata := dset st.metadata docId { m2 with cluster_id := newCid } })
            | none =>
                (Except.ok "updated",
                 { st with clusters := cl1,
                           metadata := dset st.metadata docId { m2 with cluster_id := none } })

/-- Concrete metadata record used by the concrete scenarios below: document 0,
owned by alice, assigned to cluster 1. -/
def demoMeta : DocumentMetadata :=
  { doc_id := 0, owner := "alice", source_type := "text", source_url := none,
    filename := none, concepts := [], skill_level := "unknown", cluster_id := some 1,
    ingested_at := "2026-01-01T00:00:00", content_length := 1, image_path := none,
    primary_topic := none }

/-- Concrete application state: one document (id 0) assigned to the single
cluster 1, whose `doc_count` agrees with its membership list. -/
def demoState : AppState :=
  { vector_store := VectorStore.emptyStore 16,
    documents := [(0, "x")],
    metadata := [(0, demoMeta)],
    clusters := [(1, { id := 1, name := "C", primary_concepts := [], doc_ids := [0],
                       skill_level := "unknown", doc_count := 1 })],
    users := [("alice", "h")] }

/-- Concrete application state with two clusters: document 0 sits in cluster 1
and cluster 2 is empty; every `doc_count` agrees with its membership list. -/
def demoState2 : AppState :=
  { vector_store := VectorStore.emptyStore 16,
    documents := [(0, "x")],
    metadata := [(0, demoMeta)],
    clusters := [(1, { id := 1, name := "C", primary_concepts := [], doc_ids := [0],
                       skill_level := "unknown", doc_count := 1 }),
                 (2, { id := 2, name := "D", primary_concepts := [], doc_ids := [],
                       skill_level := "unknown", doc_count := 0 })],
    users := [("alice", "h")] }

/-- Concrete vector store holding two documents, built by two insertions. -/
def vsW : VectorStore :=
  (((VectorStore.emptyStore 16).add_document "docker tool").2.add_document "docker compose").2

/-- Concrete extracted concepts of a document about docker. -/
def dcW : List Concept := [{ name := "docker", category := "tool", confidence := (9, 10) }]

/-- Concrete cluster registry with one cluster named docker. -/
def regW : List (Nat × Cluster) :=
  [(1, { id := 1, name := "docker", primary_concepts := ["docker"], doc_ids := [5],
         skill_level := "unknown", doc_count := 1 })]

theorem fracNorm_den_pos (p : Nat × Nat) : 0 < (fracNorm p).2 := by
  unfold fracNorm
  split
  · exact Nat.one_pos
  · omega

theorem fracGt_iff (a b : Nat × Nat) : fracGt a b = true ↔ fracVal b < fracVal a := by
  have ha : (0 : ℚ) < ((fracNorm a).2 : ℚ) := by exact_mod_cast fracNorm_den_pos a
  have hb : (0 : ℚ) < ((fracNorm b).2 : ℚ) := by exact_mod_cast fracNorm_den_pos b
  unfold fracGt fracVal
  rw [decide_eq_true_eq, div_lt_div_iff₀ hb ha, ← Nat.cast_mul, ← Nat.cast_mul, Nat.cast_lt]

theorem fracEq_iff (a b : Nat × Nat) : fracEq a b = true ↔ fracVal a = fracVal b := by
  have ha : (0 : ℚ) < ((fracNorm a).2 : ℚ) := by exact_mod_cast fracNorm_den_pos a
  have hb : (0 : ℚ) < ((fracNorm b).2 : ℚ) := by exact_mod_cast fracNorm_den_pos b
  unfold fracEq fracVal
  rw [beq_iff_eq, div_eq_div_iff ha.ne' hb.ne', ← Nat.cast_mul, ← Nat.cast_mul, Nat.cast_inj]

theorem hitOrder_iff (a b : Nat × (Nat × Nat) × String) :
    hitOrder a b ↔ (fracVal b.2.1 < fracVal a.2.1 ∨
      (fracVal a.2.1 = fracVal b.2.1 ∧ a.1 ≤ b.1)) := by
  unfold hitOrder hitBefore
  simp only [Bool.or_eq_true, Bool.and_eq_true, fracGt_iff, fracEq_iff, decide_eq_true_eq]

theorem hitOrder_total (a b : Nat × (Nat × Nat) × String) : hitOrder a b ∨ hitOrder b a := by
  rw [hitOrder_iff, hitOrder_iff]
  rcases lt_trichotomy (fracVal a.2.1) (fracVal b.2.1) with h | h | h
  · exact Or.inr (Or.inl h)
  · rcases Nat.le_total a.1 b.1 with h2 | h2
    · exact Or.inl (Or.inr ⟨h, h2⟩)
    · exact Or.inr (Or.inr ⟨h.symm, h2⟩)
  · exact Or.inl (Or.inl h)

theorem hitOrder_trans (a b c : Nat × (Nat × Nat) × String) :
    hitOrder a b → hitOrder b c → hitOrder a c := by
  rw [hitOrder_iff, hitOrder_iff, hitOrder_iff]
  rintro (h1 | ⟨h1, h1b⟩) (h2 | ⟨h2, h2b⟩)
  · exact Or.inl (lt_trans h2 h1)
  · rw [h2] at h1
    exact Or.inl h1
  · rw [h1]
    exact Or.inl h2
  · exact Or.inr ⟨h1.trans h2, le_trans h1b h2b⟩

theorem dmem_eq {κ α : Type} [BEq κ] (d : List (κ × α)) (k : κ) :
    dmem d k = (dget d k).isSome := by
  unfold dmem dget
  cases List.find? (fun p => p.1 == k) d <;> rfl

theorem dget_dset_self {κ α : Type} [BEq κ] [LawfulBEq κ] (d : List (κ × α)) (k : κ) (v : α) :
    dget (dset d k v) k = some v := by
  unfold dset
  by_cases h : dmem d k = true
  · rw [if_pos h]
    unfold dmem at h
    unfold dget
    induction d with
    | nil => simp at h
    | cons p rest ih =>
        cases hp : (p.1 == k) with
        | true => simp [List.find?_cons, hp]
        | false =>
            have h2 : (List.find? (fun q => q.1 == k) rest).isSome = true := by
              simpa [List.find?_cons, hp] using h
            simpa [List.map_cons, hp, List.find?_cons] using ih h2
  · rw [if_neg h]
    unfold dmem at h
    unfold dget
    induction d with
    | nil => simp [List.find?_cons]
    | cons p rest ih =>
        cases hp : (p.1 == k) with
        | true =>
            exact absurd (by simp [List.find?_cons, hp]) h
        | false =>
            have h2 : ¬ (List.find? (fun q => q.1 == k) rest).isSome = true := by
              intro h3
              exact h (by simpa [List.find?_cons, hp] using h3)
            simpa [List.cons_append, List.find?_cons, hp] using ih h2

theorem dmem_ddel_self {κ α : Type} [BEq κ] (d : List (κ × α)) (k : κ) :
    dmem (ddel d k) k = false := by
  unfold dmem ddel
  rw [Option.not_isSome, Option.isNone_iff_eq_none, List.find?_eq_none]
  intro p hp
  have := List.of_mem_filter hp
  simp only [Bool.not_eq_true'] at this
  simp [this]

theorem dget_mem {κ α : Type} [BEq κ] (d : List (κ × α)) (k : κ) (v : α)
    (h : dget d k = some v) : ∃ k0, (k0, v) ∈ d := by
  unfold dget at h
  rcases Option.map_eq_some'.mp h with ⟨p, hp, hpv⟩
  refine ⟨p.1, ?_⟩
  have hmem := List.mem_of_find?_eq_some hp
  rwa [← hpv, Prod.mk.eta]

theorem searchScored_keys (vs : VectorStore) (q : String) (allowed : Option (List Nat)) :
    (searchScored vs q allowed).map Prod.fst = (searchCands vs allowed).map Prod.fst := by
  unfold searchScored
  rw [List.map_map]
  rfl

theorem searchCands_keys_sublist (vs : VectorStore) (allowed : Option (List Nat)) :
    ((searchCands vs allowed).map Prod.fst).Sublist (vs.docs.map Prod.fst) := by
  cases allowed with
  | none => exact List.Sublist.refl _
  | some s => exact (List.filter_sublist vs.docs).map Prod.fst

theorem searchRank_pairwise (scored : List (Nat × (Nat × Nat) × String)) (k : Nat)
    (hnd : (scored.map Prod.fst).Nodup) :
    List.Pairwise (fun a b => fracVal b.2.1 < fracVal a.2.1 ∨
      (fracVal a.2.1 = fracVal b.2.1 ∧ a.1 < b.1)) (searchRank scored k) := by
  haveI : IsTotal (Nat × (Nat × Nat) × String) hitOrder := ⟨hitOrder_total⟩
  haveI : IsTrans (Nat × (Nat × Nat) × String) hitOrder := ⟨hitOrder_trans⟩
  have hsorted : List.Sorted hitOrder (scored.insertionSort hitOrder) :=
    List.sorted_insertionSort hitOrder scored
  have hperm := List.perm_insertionSort hitOrder scored
  have hnd2 : ((scored.insertionSort hitOrder).map Prod.fst).Nodup :=
    ((hperm.map Prod.fst).nodup_iff).mpr hnd
  unfold searchRank
  have hsub := List.take_sublist k (scored.insertionSort hitOrder)
  have hpw : List.Pairwise hitOrder ((scored.insertionSort hitOrder).take k) :=
    hsorted.sublist hsub
  have hnd3 : (((scored.insertionSort hitOrder).take k).map Prod.fst).Nodup :=
    (hsub.map Prod.fst).nodup hnd2
  have hne : List.Pairwise (fun a b => a.1 ≠ b.1) ((scored.insertionSort hitOrder).take k) :=
    List.pairwise_map.mp hnd3
  refine (hpw.and hne).imp ?_
  rintro a b ⟨hab, hneq⟩
  rw [hitOrder_iff] at hab
  rcases hab with h | ⟨h1, h2⟩
  · exact Or.inl h
  · exact Or.inr ⟨h1, lt_of_le_of_ne h2 hneq⟩

/-- Claim C6: for every query, corpus and k, `search(q, top_k = k)` returns at
most k results, sorted in descending order of similarity score with equal
scores ordered by ascending doc id, and returns the empty list for an empty
query or an empty corpus (stated for any optional id filter; the hypothesis
that the corpus keys are distinct is an invariant of stores built by
`add_document`). -/
theorem search_spec (vs : VectorStore) (q : String) (k : Nat) (allowed : Option (List Nat))
    (hnd : (vs.docs.map Prod.fst).Nodup) :
    (vs.search q k allowed).length ≤ k ∧
    List.Pairwise (fun a b => fracVal b.2.1 < fracVal a.2.1 ∨
      (fracVal a.2.1 = fracVal b.2.1 ∧ a.1 < b.1)) (vs.search q k allowed) ∧
    (tokenize q = [] → vs.search q k allowed = []) ∧
    (vs.docs = [] → vs.search q k allowed = []) := by
  unfold VectorStore.search
  by_cases hq : tokenize q = []
  · simp [hq]
  · rw [if_neg hq]
    refine ⟨?_, ?_, fun h => absurd h hq, ?_⟩
    · unfold searchRank
      exact List.length_take_le _ _
    · apply searchRank_pairwise
      rw [searchScored_keys]
      exact (searchCands_keys_sublist vs allowed).nodup hnd
    · intro hdocs
      cases allowed <;> simp [searchRank, searchScored, searchCands, hdocs]

/-- Witness for C6 at a concrete two-document store and query. -/
theorem search_spec_witness : (vsW.search "docker" 2 none).length ≤ 2 :=
  (search_spec vsW "docker" 2 none (by decide)).1

/-- Claim C7: every triple returned by a filtered search has its doc id inside
the filter set and inside the corpus, so unknown ids in the filter are simply
excluded from the results (the search is a total function and raises no
error). -/
theorem search_allowed_spec (vs : VectorStore) (q : String) (k : Nat) (s : List Nat)
    (x : Nat × (Nat × Nat) × String) (hx : x ∈ vs.search q k (some s)) :
    x.1 ∈ s ∧ x.1 ∈ vs.docs.map Prod.fst := by
  unfold VectorStore.search at hx
  by_cases hq : tokenize q = []
  · rw [if_pos hq] at hx
    cases hx
  · rw [if_neg hq] at hx
    unfold searchRank at hx
    have hx2 := List.mem_of_mem_take hx
    have hx3 := (List.perm_insertionSort hitOrder _).mem_iff.mp hx2
    unfold searchScored at hx3
    rcases List.mem_map.mp hx3 with ⟨p, hp, rfl⟩
    unfold searchCands at hp
    rcases List.mem_filter.mp hp with ⟨hpd, hps⟩
    exact ⟨of_decide_eq_true hps, List.mem_map_of_mem Prod.fst hpd⟩

/-- Witness for C7: the search filtered to the ids 0 and 99 (99 unknown)
returns the hit on document 0, whose id lies in the filter set and in the
corpus. -/
theorem search_allowed_spec_witness :
    (0 ∈ ([0, 99] : List Nat)) ∧ 0 ∈ vsW.docs.map Prod.fst :=
  search_allowed_spec vsW "docker" 5 [0, 99] (0, (16, 32), "docker tool") (by decide)

theorem foldl_max_append (l : List Nat) (x : Nat) :
    (l ++ [x]).foldl max 0 = max (l.foldl max 0) x := by
  rw [List.foldl_append]
  rfl

theorem add_document_fst (vs : VectorStore) (t : String) :
    (vs.add_document t).1 = vs.nextId := rfl

theorem nextId_add (vs : VectorStore) (t : String) :
    ((vs.add_document t).2).nextId = vs.nextId + 1 := by
  unfold VectorStore.add_document VectorStore.nextId
  by_cases hD : vs.docs.isEmpty
  · have hnil : vs.docs = [] := List.isEmpty_iff.mp hD
    simp [hnil]
  · rw [if_neg hD]
    have hne : ∀ x : Nat × String, (vs.docs ++ [x]).isEmpty = false := by
      intro x
      cases vs.docs <;> rfl
    simp only [if_neg hD, hne, Bool.false_eq_true, if_false, List.map_append, List.map_cons,
      List.map_nil, foldl_max_append]
    rw [Nat.max_eq_right (Nat.le_succ _)]

theorem replayIdsFrom_eq (texts : List String) : ∀ vs : VectorStore,
    replayIdsFrom vs texts = List.range' vs.nextId texts.length := by
  induction texts with
  | nil => intro vs; rfl
  | cons t rest ih =>
      intro vs
      show (vs.add_document t).1 :: replayIdsFrom (vs.add_document t).2 rest = _
      rw [ih, nextId_add, add_document_fst]
      rfl

/-- Claim C5: `add_document` returns one plus the current maximum existing id
(0 when the index is empty); consecutive calls return consecutive ids; the
replay from an empty store assigns the ids 0, 1, 2, …, so that during the
`load_storage` rebuild the id assigned for the k-th replayed text equals k,
which is also the key the text is stored under. -/
theorem add_document_id_assignment (dim : Nat) (texts : List String) :
    ((∀ (vs : VectorStore) (t : String), (vs.add_document t).1 =
        if vs.docs.isEmpty then 0 else (vs.docs.map Prod.fst).foldl max 0 + 1) ∧
     (∀ (vs : VectorStore) (t t2 : String),
        (((vs.add_document t).2).add_document t2).1 = (vs.add_document t).1 + 1)) ∧
    replayIdsFrom (VectorStore.emptyStore dim) texts = List.range texts.length ∧
    (load_storage texts (VectorStore.emptyStore dim)).1.map Prod.fst =
      replayIdsFrom (VectorStore.emptyStore dim) texts ∧
    (∀ idx, idx < texts.length →
      (replayIdsFrom (VectorStore.emptyStore dim) texts).getD idx 0 = idx) := by
  have hrep : replayIdsFrom (VectorStore.emptyStore dim) texts = List.range texts.length := by
    rw [replayIdsFrom_eq]
    rw [List.range_eq_range']
    rfl
  refine ⟨⟨fun vs t => rfl, fun vs t t2 => ?_⟩, hrep, ?_, ?_⟩
  · rw [add_document_fst, add_document_fst, nextId_add]
  · rw [hrep]
    unfold load_storage
    simp [List.enum_map_fst]
  · intro idx hidx
    rw [hrep, List.getD_eq_getElem?_getD, List.getElem?_range hidx]
    rfl

/-- Witness for C5: replaying three texts from an empty store assigns the id 2
to the third one. -/
theorem add_document_id_assignment_witness :
    (replayIdsFrom (VectorStore.emptyStore 8) ["x", "y", "z"]).getD 2 0 = 2 :=
  (add_document_id_assignment 8 ["x", "y", "z"]).2.2.2 2 (by decide)

/-- Claim C2 is false on the code: `save_storage` persists the documents as a
bare list of texts in ascending doc id order, dropping the ids, and
`load_storage` renumbers them 0..n-1 by enumeration; a store with a gap left
by a deletion (ids 0 and 2) comes back with ids 0 and 1, not with the
original doc ids. -/
theorem save_load_drops_doc_ids :
    (load_storage (save_storage [(0, "a"), (2, "b")]) (VectorStore.emptyStore 16)).1 =
        [(0, "a"), (1, "b")] ∧
    (load_storage (save_storage [(0, "a"), (2, "b")]) (VectorStore.emptyStore 16)).1 ≠
        [(0, "a"), (2, "b")] := by
  constructor
  · decide
  · decide

/-- Claim C1 is false on the code: both membership-mutating endpoints leave
`doc_count` stale. In a state where every cluster satisfies
`doc_count = |doc_ids|`, `delete_document` removes the doc id from the cluster
membership without decrementing `doc_count`, and `update_document_metadata`
moves a document between two clusters without touching either count, so the
invariant breaks on both paths. -/
theorem cluster_doc_count_not_maintained :
    ((∀ p ∈ demoState.clusters, p.2.doc_count = p.2.doc_ids.length) ∧
     (delete_document demoState 0).1 = Except.ok "deleted" ∧
     ¬ (∀ p ∈ (delete_document demoState 0).2.clusters,
          p.2.doc_count = p.2.doc_ids.length)) ∧
    ((∀ p ∈ demoState2.clusters, p.2.doc_count = p.2.doc_ids.length) ∧
     (update_document_metadata demoState2 0 ⟨none, none, some (some 2)⟩).1 =
        Except.ok "updated" ∧
     ¬ (∀ p ∈ (update_document_metadata demoState2 0 ⟨none, none, some (some 2)⟩).2.clusters,
          p.2.doc_count = p.2.doc_ids.length)) :=
  ⟨⟨by decide, rfl, by decide⟩, ⟨by decide, rfl, by decide⟩⟩

/-- Claim C3 is false on the code: reassigning document 0 to the nonexistent
cluster 2 fails with HTTP 404, but only after the doc id has been removed
from its old cluster, so on failure the state has changed, the metadata still
names cluster 1, and the document is a member of no cluster at all — while
before the call it was a member of cluster 1. -/
theorem reassignment_failure_mutates_membership :
    (update_document_metadata demoState 0 ⟨none, none, some (some 2)⟩).1 =
        Except.error 404 ∧
    (update_document_metadata demoState 0 ⟨none, none, some (some 2)⟩).2 ≠ demoState ∧
    (dget (update_document_metadata demoState 0 ⟨none, none, some (some 2)⟩).2.metadata 0).map
        (fun m => m.cluster_id) = some (some 1) ∧
    (¬ ∃ p ∈ (update_document_metadata demoState 0 ⟨none, none, some (some 2)⟩).2.clusters,
        0 ∈ p.2.doc_ids) ∧
    (∃ p ∈ demoState.clusters, 0 ∈ p.2.doc_ids) :=
  ⟨rfl, by decide, by decide, by decide, by decide⟩

/-- Claim C9: blank text (empty, or whitespace only) is rejected by the
text-ingestion endpoint with HTTP 400 before any mutation — the returned
state is exactly the input state, so corpus vectors, raw-text store,
vocabulary statistics, metadata map and cluster registry are all unchanged. -/
theorem upload_blank_rejected (st : AppState) (username content : String)
    (ext : Extraction) (now : String) (h : content = "" ∨ pyStrip content = "") :
    upload_text_content st username content ext now = (Except.error 400, st) := by
  unfold upload_text_content
  rw [if_pos h]

/-- Witness for C9: uploading a whitespace-only string leaves the concrete
state untouched and returns HTTP 400. -/
theorem upload_blank_rejected_witness :
    upload_text_content demoState "alice" " " ⟨[], none, none⟩ "t0" =
      (Except.error 400, demoState) :=
  upload_blank_rejected demoState "alice" " " ⟨[], none, none⟩ "t0" (Or.inr (by decide))

/-- Claim C10: a successful `delete_document` leaves the vector store
entirely unchanged (the handler never invokes any removal on it, so the
deleted vector and its document-frequency contributions persist), while the
entry disappears from the text store and the metadata map and the doc id is
detached from its cluster membership list (whose `doc_count` field the
handler leaves as it was). -/
theorem delete_document_vector_store_frame (st : AppState) (docId : Nat)
    (h : dmem st.documents docId = true) :
    (delete_document st docId).1 = Except.ok "deleted" ∧
    (delete_document st docId).2.vector_store = st.vector_store ∧
    dmem (delete_document st docId).2.documents docId = false ∧
    dmem (delete_document st docId).2.metadata docId = false ∧
    (∀ (m : DocumentMetadata) (cid : Nat) (cl : Cluster),
        dget st.metadata docId = some m → m.cluster_id = some cid →
        dget st.clusters cid = some cl →
          dget (delete_document st docId).2.clusters cid =
            some { cl with doc_ids := cl.doc_ids.erase docId }) := by
  unfold delete_document
  simp only [h, Bool.not_true, Bool.false_eq_true, if_false]
  refine ⟨by trivial, by trivial, dmem_ddel_self _ _, dmem_ddel_self _ _, ?_⟩
  intro m cid cl hm hcid hcl
  simp only [hm, hcid, hcl]
  by_cases hmem : docId ∈ cl.doc_ids
  · rw [if_pos hmem, dget_dset_self]
  · rw [if_neg hmem, List.erase_of_not_mem hmem]
    exact hcl

/-- Witness for C10: deleting document 0 from the concrete state leaves the
vector store exactly as it was. -/
theorem delete_document_vector_store_frame_witness :
    (delete_document demoState 0).2.vector_store = demoState.vector_store :=
  (delete_document_vector_store_frame demoState 0 (by decide)).2.1

theorem clusterBetter_iff (dc : List Concept) (a b : Cluster) :
    clusterBetter dc a b = true ↔
      (fracVal (overlapFrac dc b) < fracVal (overlapFrac dc a) ∨
       (fracVal (overlapFrac dc a) = fracVal (overlapFrac dc b) ∧
         (b.doc_count < a.doc_count ∨ (b.doc_count = a.doc_count ∧ a.id < b.id)))) := by
  unfold clusterBetter
  simp only [Bool.or_eq_true, Bool.and_eq_true, fracGt_iff, fracEq_iff, decide_eq_true_eq,
    beq_iff_eq]

theorem clusterBetter_asymm (dc : List Concept) (a b : Cluster)
    (h : clusterBetter dc a b = true) : clusterBetter dc b a = false := by
  rw [clusterBetter_iff] at h
  rw [Bool.eq_false_iff]
  intro h2
  rw [clusterBetter_iff] at h2
  rcases h with h | ⟨he, h | ⟨hc, hi⟩⟩ <;> rcases h2 with h2 | ⟨he2, h2 | ⟨hc2, hi2⟩⟩ <;>
    linarith

theorem clusterPref_total (dc : List Concept) (a b : Cluster) :
    clusterPref dc a b ∨ clusterPref dc b a := by
  unfold clusterPref
  cases h : clusterBetter dc b a with
  | false => exact Or.inl rfl
  | true => exact Or.inr (clusterBetter_asymm dc b a h)

theorem clusterPref_trans (dc : List Concept) (a b c : Cluster) (h1 : clusterPref dc a b)
    (h2 : clusterPref dc b c) : clusterPref dc a c := by
  unfold clusterPref at h1 h2 ⊢
  rw [← Bool.not_eq_true] at h1 h2 ⊢
  rw [clusterBetter_iff] at h1 h2
  push_neg at h1 h2
  intro hca
  rw [clusterBetter_iff] at hca
  rcases hca with hlt | ⟨hre, hin⟩
  · linarith [h1.1, h2.1]
  · have hba : fracVal (overlapFrac dc b) = fracVal (overlapFrac dc a) := by
      linarith [h1.1, h2.1]
    have hcb : fracVal (overlapFrac dc c) = fracVal (overlapFrac dc b) := by
      linarith [h1.1, h2.1]
    obtain ⟨hd1, hi1⟩ := h1.2 hba
    obtain ⟨hd2, hi2⟩ := h2.2 hcb
    rcases hin with hlt2 | ⟨hdeq, hid⟩
    · omega
    · have hd12 : a.doc_count = b.doc_count := by omega
      have hd23 : b.doc_count = c.doc_count := by omega
      have := hi1 hd12
      have := hi2 hd23
      omega

theorem clusterBetter_connex (dc : List Concept) (a b : Cluster)
    (h1 : clusterBetter dc a b = false) (h2 : clusterBetter dc b a = false) :
    a.id = b.id := by
  rw [← Bool.not_eq_true] at h1 h2
  rw [clusterBetter_iff] at h1 h2
  push_neg at h1 h2
  have hR : fracVal (overlapFrac dc a) = fracVal (overlapFrac dc b) :=
    le_antisymm h1.1 h2.1
  obtain ⟨hd1, hi1⟩ := h1.2 hR
  obtain ⟨hd2, hi2⟩ := h2.2 hR.symm
  omega

/-- Claim C4: `find_best_cluster` returns none exactly when no cluster in the
registry is eligible (in particular on an empty registry); and when it
returns an id, some eligible cluster in the registry carries that id and is
strictly preferred — higher overlap, then larger `doc_count`, then lower id
— over every other eligible cluster. -/
theorem find_best_cluster_spec (dc : List Concept) (sn : String)
    (reg : List (Nat × Cluster)) :
    (find_best_cluster dc sn reg = none ↔
       ∀ c ∈ reg.map Prod.snd, clusterEligible dc sn c = false) ∧
    (∀ cid, find_best_cluster dc sn reg = some cid →
       ∃ c ∈ reg.map Prod.snd, c.id = cid ∧ clusterEligible dc sn c = true ∧
         ∀ c2 ∈ reg.map Prod.snd, clusterEligible dc sn c2 = true → c2.id ≠ c.id →
           clusterBetter dc c c2 = true) := by
  haveI : IsTotal Cluster (clusterPref dc) := ⟨clusterPref_total dc⟩
  haveI : IsTrans Cluster (clusterPref dc) := ⟨clusterPref_trans dc⟩
  unfold find_best_cluster
  set elig := (reg.map Prod.snd).filter (clusterEligible dc sn) with helig
  have hperm := List.perm_insertionSort (clusterPref dc) elig
  have hsorted := List.sorted_insertionSort (clusterPref dc) elig
  constructor
  · constructor
    · intro h c hc
      by_contra hcE
      have hcelig : c ∈ elig :=
        List.mem_filter.mpr ⟨hc, (Bool.not_eq_false _).mp hcE⟩
      have hcs : c ∈ elig.insertionSort (clusterPref dc) := hperm.mem_iff.mpr hcelig
      rcases hs : elig.insertionSort (clusterPref dc) with _ | ⟨h0, rest⟩
      · rw [hs] at hcs
        cases hcs
      · rw [hs] at h
        simp at h
    · intro hall
      have hnil : elig = [] := by
        rw [helig, List.filter_eq_nil_iff]
        intro c hc
        simp [hall c hc]
      rw [hnil]
      rfl
  · intro cid hcid
    rcases hs : elig.insertionSort (clusterPref dc) with _ | ⟨c0, rest⟩
    · rw [hs] at hcid
      cases hcid
    · rw [hs] at hcid
      simp only [List.head?, Option.map_some'] at hcid
      have hcid2 : c0.id = cid := Option.some.inj hcid
      have hc0s : c0 ∈ elig.insertionSort (clusterPref dc) := by
        rw [hs]
        exact List.mem_cons_self c0 rest
      have hc0elig : c0 ∈ elig := hperm.mem_iff.mp hc0s
      rcases List.mem_filter.mp hc0elig with ⟨hc0mem, hc0e⟩
      refine ⟨c0, hc0mem, hcid2, hc0e, ?_⟩
      intro c2 hc2 hc2e hne
      have hc2elig : c2 ∈ elig := List.mem_filter.mpr ⟨hc2, hc2e⟩
      have hc2sort : c2 ∈ c0 :: rest := by
        rw [← hs]
        exact hperm.mem_iff.mpr hc2elig
      rw [hs] at hsorted
      rcases List.mem_cons.mp hc2sort with hq | hc2rest
      · exact absurd (hq ▸ rfl) hne
      · have hpref : clusterPref dc c0 c2 := (List.sorted_cons.mp hsorted).1 c2 hc2rest
        unfold clusterPref at hpref
        cases hF : clusterBetter dc c0 c2 with
        | true => rfl
        | false =>
            exact absurd (clusterBetter_connex dc c2 c0 hpref hF) hne

/-- Witness for C4: on the concrete docker registry the lookup does not come
back empty-handed, since the single cluster is eligible by name match. -/
theorem find_best_cluster_spec_witness :
    find_best_cluster dcW "Docker" regW ≠ none := by
  intro h
  have h2 := (find_best_cluster_spec dcW "Docker" regW).1.mp h
  have h3 := h2 (Cluster.mk 1 "docker" ["docker"] [5] "unknown" 1) (by decide)
  exact absurd h3 (by decide)

/-- Claim C8: `add_to_cluster` is idempotent — a second call with the same
cluster id and doc id is the identity on the registry — and after one call
every membership list is still duplicate-free and the `doc_count` of every
cluster still equals the length of its membership list (given that both
properties held before the call). -/
theorem add_to_cluster_idempotent (cid docId : Nat) (reg : List (Nat × Cluster))
    (hcnt : ∀ p ∈ reg, p.2.doc_count = p.2.doc_ids.length)
    (hnd : ∀ p ∈ reg, p.2.doc_ids.Nodup) :
    add_to_cluster cid docId (add_to_cluster cid docId reg) = add_to_cluster cid docId reg ∧
    (∀ p ∈ add_to_cluster cid docId reg, p.2.doc_ids.Nodup) ∧
    (∀ p ∈ add_to_cluster cid docId reg, p.2.doc_count = p.2.doc_ids.length) := by
  unfold add_to_cluster
  cases hg : dget reg cid with
  | none =>
      simp only [hg]
      exact ⟨trivial, hnd, hcnt⟩
  | some c =>
      by_cases hm : docId ∈ c.doc_ids
      · simp only [hg, if_pos hm]
        exact ⟨trivial, hnd, hcnt⟩
      · simp only [hg, if_neg hm]
        have hdm : dmem reg cid = true := by
          rw [dmem_eq, hg]
          rfl
        have hset := dget_dset_self reg cid
          { c with doc_ids := c.doc_ids ++ [docId], doc_count := c.doc_ids.length + 1 }
        have hcmem : ∃ k0, (k0, c) ∈ reg := dget_mem reg cid c hg
        refine ⟨?_, ?_, ?_⟩
        · have hmem2 : docId ∈ c.doc_ids ++ [docId] :=
            List.mem_append_right _ (List.mem_singleton.mpr rfl)
          simp only [hset, hmem2, if_true]
        · intro p hp
          unfold dset at hp
          rw [if_pos hdm] at hp
          rcases List.mem_map.mp hp with ⟨q, hq, rfl⟩
          cases hqk : (q.1 == cid) with
          | true =>
              simp only [hqk, if_true]
              rcases hcmem with ⟨k0, hk0⟩
              have hcnodup : c.doc_ids.Nodup := hnd (k0, c) hk0
              simp [List.nodup_append, hcnodup, hm]
          | false =>
              simp only [hqk, Bool.false_eq_true, if_false]
              exact hnd q hq
        · intro p hp
          unfold dset at hp
          rw [if_pos hdm] at hp
          rcases List.mem_map.mp hp with ⟨q, hq, rfl⟩
          cases hqk : (q.1 == cid) with
          | true =>
              simp only [hqk, if_true]
              simp [List.length_append]
          | false =>
              simp only [hqk, Bool.false_eq_true, if_false]
              exact hcnt q hq

/-- Witness for C8: adding document 7 to cluster 1 of the concrete registry a
second time changes nothing. -/
theorem add_to_cluster_idempotent_witness :
    add_to_cluster 1 7 (add_to_cluster 1 7 regW) = add_to_cluster 1 7 regW :=
  (add_to_cluster_idempotent 1 7 regW (by decide) (by decide)).1

end SyncBoard
